import Mathlib

/-!
Verification development for the whids EDR agent's detection-response core.

The Go sources embedded here:
  * `hids/actions.go`   — `ActionHandler`: `HandleActions`, `suspend_process`,
    `kill_process`, `memdump`, `dumpFile`, `shouldDump`;
  * `hids/hookdefs.go`  — `hookHandleActions`, `hookTerminator`,
    `hookImageLoad`, `hookSelfGUID`, `dumpPidAndCompress`;
  * `api/manager_admin_api.go` — `Manager.admAPIRulesSave`.

Side-effecting Go code is embedded as pure functions that return the list of
OS-level calls they would issue (a trace of `Op`s) together with the updated
in-memory state.  OS outcomes (is a PID running, did the memory snapshot
succeed, ...) are inputs, mirroring the black-box OS layer of the design.
-/

namespace Whids

/-- Action-name constants from `hids/actions.go`. -/
def ActionKill : String := "kill"

def ActionBlacklist : String := "blacklist"

def ActionMemdump : String := "memdump"

def ActionFiledump : String := "filedump"

def ActionRegdump : String := "regdump"

def ActionReport : String := "report"

def ActionBrief : String := "brief"

/-- Empty GUID constant from `hids/hookdefs.go`. -/
def nullGUID : String := "{00000000-0000-0000-0000-000000000000}"

/-- Sysmon process-creation event id. -/
def SysmonProcessCreate : Nat := 1

/-- The slice of a process track relevant to action handling
(`processTrackFromEvent` result): PID (`int64` in Go), process GUID,
image path and command line. -/
structure ProcessTrack where
  pid : Int
  guid : String
  image : String
  commandLine : String
deriving DecidableEq

/-- OS-level and filesystem-level calls issued by the response code.
`poll` is one one-second sleep of the kill-waits-for-memdump loop. -/
inductive Op where
  | suspend (pid : Int)
  | memdumpCall (pid : Int)
  | markMemdumped (guid : String)
  | terminate (pid : Int)
  | blacklistAdd (cmd : String)
  | writeReport
  | filedumpFile (path : String)
  | regdump
  | writeEventJson
  | poll
deriving DecidableEq

/-- Association-list lookup for the per-GUID dump counters. -/
def assocGet : List (String × Nat) → String → Option Nat
  | [], _ => none
  | (k, v) :: rest, key => if k = key then some v else assocGet rest key

/-- Association-list update (first matching key) for the dump counters. -/
def assocSet : List (String × Nat) → String → Nat → List (String × Nat)
  | [], _, _ => []
  | (k, v) :: rest, key, nv =>
      if k = key then (k, nv) :: rest else (k, v) :: assocSet rest key nv

/-- Modelled from the spec: `ProcessTracker.CheckDumpCountOrInc` is not under
`src/` (only its callers are).  Per the spec, before any dump action the
orchestrator "checks and atomically increments a per-GUID dump counter; once a
configured maximum is reached, further dumps for that GUID are refused", and an
explicit dump-untracked policy flag "controls whether processes without a
resolvable track may be dumped at all".  The counter lives on the track, so an
untracked GUID has no counter and the flag alone decides. -/
def checkDumpCountOrInc (counts : List (String × Nat)) (guid : String)
    (maxDumps : Nat) (dumpUntracked : Bool) : Bool × List (String × Nat) :=
  match assocGet counts guid with
  | some c =>
      if c < maxDumps then (true, assocSet counts guid (c + 1)) else (false, counts)
  | none => (dumpUntracked, counts)

/-- The two GUID-keyed dedup sets of the `HIDS` object used by the memory
dump code: `memdumped` (dump completed) and `dumping` (dump in flight). -/
structure DumpSets where
  memdumped : List String
  dumping : List String
deriving DecidableEq

/-- Embedding of `ActionHandler.suspend_process` (`hids/actions.go`): suspends the tracked
process unless the track is missing or the PID is the agent's own. -/
def suspend_process (selfPid : Int) (track : Option ProcessTrack) : List Op :=
  match track with
  | some pt => if pt.pid ≠ selfPid then [Op.suspend pt.pid] else []
  | none => []

/-- Embedding of `ActionHandler.kill_process` (`hids/actions.go`): issues the terminate
call unless the track is missing or the PID is the agent's own (the error
returned when the OS call fails does not change which calls are issued). -/
def kill_process (selfPid : Int) (track : Option ProcessTrack) : List Op :=
  match track with
  | some pt => if pt.pid ≠ selfPid then [Op.terminate pt.pid] else []
  | none => []

/-- Embedding of `ActionHandler.memdump` (`hids/actions.go`), sequential run: guarded by
PID liveness, self-PID, the `memdumped` set and the in-flight `dumping` set;
on a successful snapshot the GUID is marked memory-dumped.  The `dumping`
add/deferred-del pair cancels out over one sequential run, so only the
`memdumped` update survives in the returned state.  `pidRunning` and
`dumpOk` are the outcomes of the black-box OS calls. -/
def memdump (selfPid : Int) (pidRunning dumpOk : Bool)
    (track : Option ProcessTrack) (guid : String) (s : DumpSets) :
    List Op × DumpSets :=
  match track with
  | some pt =>
      if pidRunning = true ∧ pt.pid ≠ selfPid ∧
          guid ∉ s.memdumped ∧ guid ∉ s.dumping then
        if dumpOk then
          ([Op.memdumpCall pt.pid, Op.markMemdumped guid],
            { s with memdumped := guid :: s.memdumped })
        else ([Op.memdumpCall pt.pid], s)
      else ([], s)
  | none => ([], s)

/-- Configuration slice used by `HandleActions`: `Dump.MaxDumps`,
`Dump.DumpUntracked` and `Report.EnableReporting`. -/
structure ActionConfig where
  maxDumps : Nat
  dumpUntracked : Bool
  enableReporting : Bool
deriving DecidableEq

/-- One detected event as seen by the action code, with the event-derived
values the Go code obtains through helpers (`srcGUIDFromEvent`,
`processTrackFromEvent`, detection lookup) and the OS-call outcomes. -/
structure ActionInput where
  isHids : Bool
  hasDetection : Bool
  actions : List String
  guid : String
  track : Option ProcessTrack
  pidRunning : Bool
  dumpOk : Bool
  regBinaryData : Bool
  fileCandidates : List String
  selfPid : Int
deriving DecidableEq

/-- Mutable agent state touched by `HandleActions`: the tracker's per-GUID
dump counters, the memory-dump dedup sets and the command-line blacklist. -/
structure HState where
  counts : List (String × Nat)
  sets : DumpSets
  blacklist : List String
deriving DecidableEq

/-- Blacklisting paragraph of `HandleActions`: adds the track's command line
to the blacklist unless the target is the agent itself. -/
def blacklistStep (selfPid : Int) (track : Option ProcessTrack)
    (bl : List String) : List Op × List String :=
  match track with
  | some pt =>
      if pt.pid ≠ selfPid then ([Op.blacklistAdd pt.commandLine], pt.commandLine :: bl)
      else ([], bl)
  | none => ([], bl)

/-- Report paragraph of `HandleActions`: dump `report.json` when `report` or
`brief` is requested and reporting is enabled. -/
def reportOps (report brief enableReporting : Bool) : List Op :=
  if (report || brief) && enableReporting then [Op.writeReport] else []

/-- Filedump paragraph of `HandleActions`: one dump per candidate file of
`filedumpSet` (the candidate computation reads the event and filesystem and
is supplied as an input list). -/
def filedumpOps (requested : Bool) (candidates : List String) : List Op :=
  if requested then candidates.map Op.filedumpFile else []

/-- Regdump paragraph of `HandleActions`: writes `reg.txt` only for a
Sysmon registry-value-set event whose `Details` is `Binary Data`. -/
def regdumpOps (requested binaryData : Bool) : List Op :=
  if requested && binaryData then [Op.regdump] else []

/-- Embedding of `ActionHandler.HandleActions` (`hids/actions.go`).  Everything is gated
on `shouldDump` — the per-GUID dump-budget check, evaluated (and the counter
incremented) first — then on the event not being the agent's own and a
detection being present.  Inside the gate, in source order: blacklist,
suspend (if kill), memdump, kill, report, filedump, regdump, event dump. -/
def HandleActions (cfg : ActionConfig) (inp : ActionInput) (st : HState) :
    List Op × HState :=
  let checked := checkDumpCountOrInc st.counts inp.guid cfg.maxDumps cfg.dumpUntracked
  let st1 : HState := { st with counts := checked.2 }
  if checked.1 && !inp.isHids && inp.hasDetection then
    let report := ActionReport ∈ inp.actions
    let brief := ActionBrief ∈ inp.actions
    let kill := ActionKill ∈ inp.actions
    let bl := if ActionBlacklist ∈ inp.actions then
        blacklistStep inp.selfPid inp.track st1.blacklist
      else ([], st1.blacklist)
    let t2 := if kill then suspend_process inp.selfPid inp.track else []
    let md := if ActionMemdump ∈ inp.actions then
        memdump inp.selfPid inp.pidRunning inp.dumpOk inp.track inp.guid st1.sets
      else ([], st1.sets)
    let t4 := if kill then kill_process inp.selfPid inp.track else []
    let t5 := reportOps (decide report) (decide brief) cfg.enableReporting
    let t6 := filedumpOps (decide (ActionFiledump ∈ inp.actions)) inp.fileCandidates
    let t7 := regdumpOps (decide (ActionRegdump ∈ inp.actions)) inp.regBinaryData
    (bl.1 ++ t2 ++ md.1 ++ t4 ++ t5 ++ t6 ++ t7 ++ [Op.writeEventJson],
      { counts := checked.2, sets := md.2, blacklist := bl.2 })
  else ([], st1)

/-- Kill-wait loop of `hookHandleActions` (`hids/hookdefs.go`): the number of
one-second sleeps performed by
`for i := 0; i < 60 && !h.memdumped.Contains(guid); i++`.  `marker i` is
whether the asynchronous memory dump has set the memory-dump-completed marker
by the time of the i-th check; `b` is the remaining iteration budget. -/
def killWaitPolls (marker : Nat → Bool) : Nat → Nat → Nat
  | _, 0 => 0
  | i, b + 1 => if marker i then 0 else killWaitPolls marker (i + 1) b + 1

/-- Synchronous per-action loop body of `hookHandleActions`
(`hids/hookdefs.go`): `kill` suspends the target now, `blacklist` records the
command line; `memdump`/`regdump`/`filedump`/`report` only spawn asynchronous
routines and issue no synchronous OS call. -/
def hookActionSyncOps (selfPid : Int) (track : Option ProcessTrack) :
    List String → List Op
  | [] => []
  | a :: rest =>
      (if a = ActionKill then
        match track with
        | some pt => if pt.pid ≠ selfPid then [Op.suspend pt.pid] else []
        | none => []
      else if a = ActionBlacklist then
        match track with
        | some pt => if pt.pid ≠ selfPid then [Op.blacklistAdd pt.commandLine] else []
        | none => []
      else []) ++ hookActionSyncOps selfPid track rest

/-- Kill paragraph of `hookHandleActions` (`hids/hookdefs.go`): after the
action loop, if `kill` was seen and the target is tracked and not the agent,
either terminate at once, or — when `memdump` was also seen — poll the
memory-dump-completed marker for at most 60 one-second sleeps first. -/
def hookKillOps (selfPid : Int) (marker : Nat → Bool) (memdumpReq : Bool)
    (track : Option ProcessTrack) : List Op :=
  match track with
  | some pt =>
      if pt.pid ≠ selfPid then
        if memdumpReq then
          List.replicate (killWaitPolls marker 0 60) Op.poll ++ [Op.terminate pt.pid]
        else [Op.terminate pt.pid]
      else []
  | none => []

/-- Embedding of `hookHandleActions` (`hids/hookdefs.go`): skip the agent's own events and
events without a process GUID; otherwise run the action loop and then the
kill paragraph.  The trace lists the synchronous calls followed by the kill
goroutine's calls; the asynchronous dump goroutine is abstracted by `marker`. -/
def hookHandleActions (inp : ActionInput) (marker : Nat → Bool) : List Op :=
  if inp.isHids then []
  else if inp.guid = nullGUID then []
  else if inp.hasDetection then
    hookActionSyncOps inp.selfPid inp.track inp.actions ++
      (if ActionKill ∈ inp.actions then
        hookKillOps inp.selfPid marker (ActionMemdump ∈ inp.actions) inp.track
      else [])
  else []

/-- Trace check for the kill-ordering claim: scanning the trace left to
right, every `terminate` must come after the memory-dump-completed marker
for `guid` was set or after at least 60 polls. -/
def killOrderingChk (guid : String) : List Op → Bool → Nat → Bool
  | [], _, _ => true
  | Op.terminate _ :: rest, markSeen, polls =>
      (markSeen || decide (60 ≤ polls)) && killOrderingChk guid rest markSeen polls
  | Op.markMemdumped g :: rest, markSeen, polls =>
      killOrderingChk guid rest (markSeen || g == guid) polls
  | Op.poll :: rest, markSeen, polls => killOrderingChk guid rest markSeen (polls + 1)
  | _ :: rest, markSeen, polls => killOrderingChk guid rest markSeen polls

/-- Trace check for suspend-before-kill: no `terminate` of `pid` may occur
before a `suspend` of `pid`. -/
def suspendBeforeKill (pid : Int) : List Op → Bool
  | [] => true
  | Op.terminate p :: rest => !(p == pid) && suspendBeforeKill pid rest
  | Op.suspend p :: rest => p == pid || suspendBeforeKill pid rest
  | _ :: rest => suspendBeforeKill pid rest

/-- Exit value of the kill-wait loop: either the iteration budget of 60
one-second polls was exhausted, or the memory-dump-completed marker was
observed at the exit index. -/
theorem killWaitPolls_spec (marker : Nat → Bool) :
    ∀ (b i : Nat), killWaitPolls marker i b = b ∨
      marker (i + killWaitPolls marker i b) = true := by
  intro b
  induction b with
  | zero => intro i; left; rfl
  | succ b ih =>
      intro i
      by_cases h : marker i = true
      · right
        simp [killWaitPolls, h]
      · rcases ih (i + 1) with h1 | h1
        · left
          simp [killWaitPolls, h, h1]
        · right
          have h2 : killWaitPolls marker i (b + 1) = killWaitPolls marker (i + 1) b + 1 := by
            simp [killWaitPolls, h]
          rw [h2]
          have e : i + (killWaitPolls marker (i + 1) b + 1)
              = (i + 1) + killWaitPolls marker (i + 1) b := by omega
          rw [e]
          exact h1

/-- Detected event used to refute the kill-ordering claim on the
`HandleActions` path: `kill` and `memdump` both requested, tracked target
PID 42 (agent PID 1), memory snapshot call fails. -/
def c1FailTrack : ProcessTrack :=
  { pid := 42, guid := "G", image := "C:\\tool.exe", commandLine := "tool" }

/-- Input record for the C1 counterexample. -/
def c1FailInp : ActionInput :=
  { isHids := false, hasDetection := true, actions := [ActionKill, ActionMemdump],
    guid := "G", track := some c1FailTrack, pidRunning := true, dumpOk := false,
    regBinaryData := false, fileCandidates := [], selfPid := 1 }

/-- Configuration and agent state for the C1 counterexample. -/
def c1FailCfg : ActionConfig := { maxDumps := 2, dumpUntracked := false, enableReporting := false }

/-- Agent state for the C1 counterexample: GUID tracked, no dump yet. -/
def c1FailSt : HState := { counts := [("G", 0)], sets := ⟨[], []⟩, blacklist := [] }

/-- C1 (counterexample): a detection with both `kill` and `memdump` on a
tracked non-agent process, whose memory snapshot call fails, satisfies every
precondition of the claim, yet `HandleActions` issues the terminate call with
the memory-dump-completed marker never set and zero polls elapsed — the
kill-ordering trace check fails. -/
theorem c1_kill_ordering_counterexample :
    (c1FailInp.track = some c1FailTrack ∧ c1FailTrack.pid ≠ c1FailInp.selfPid ∧
      ActionKill ∈ c1FailInp.actions ∧ ActionMemdump ∈ c1FailInp.actions ∧
      (checkDumpCountOrInc c1FailSt.counts c1FailInp.guid c1FailCfg.maxDumps
        c1FailCfg.dumpUntracked).1 = true ∧
      c1FailInp.isHids = false ∧ c1FailInp.hasDetection = true) ∧
    killOrderingChk c1FailInp.guid
      (HandleActions c1FailCfg c1FailInp c1FailSt).1 false 0 = false := by
  decide

/-- C1 (amended): for a detection with both `kill` and `memdump` on a tracked
non-agent process, the target is suspended before the terminate call in both
code paths.  In the synchronous `HandleActions` path termination is issued
right after the `memdump` handler has returned — the marker is set before the
terminate exactly when the snapshot attempt ran and succeeded, with no
polling wait.  In the asynchronous `hookHandleActions` path termination is
issued only after the memory-dump-completed marker is observed or after the
60 one-second polls of the wait loop have elapsed. -/
theorem c1_kill_ordering_amended (cfg : ActionConfig) (inp : ActionInput) (st : HState)
    (pt : ProcessTrack) (marker : Nat → Bool)
    (htrack : inp.track = some pt) (hself : pt.pid ≠ inp.selfPid)
    (hkill : ActionKill ∈ inp.actions) (hmem : ActionMemdump ∈ inp.actions)
    (hgate : (checkDumpCountOrInc st.counts inp.guid cfg.maxDumps cfg.dumpUntracked).1 = true)
    (hhids : inp.isHids = false) (hdet : inp.hasDetection = true)
    (hguid : inp.guid ≠ nullGUID) :
    (∃ pre post,
      (HandleActions cfg inp st).1
        = pre ++ Op.suspend pt.pid ::
            ((memdump inp.selfPid inp.pidRunning inp.dumpOk inp.track inp.guid st.sets).1
              ++ Op.terminate pt.pid :: post)
      ∧ (∀ p, Op.terminate p ∉ pre)
      ∧ (∀ p, Op.memdumpCall p ∉ post))
    ∧ (inp.dumpOk = true →
        Op.memdumpCall pt.pid ∈ (memdump inp.selfPid inp.pidRunning inp.dumpOk inp.track inp.guid st.sets).1 →
        Op.markMemdumped inp.guid ∈ (memdump inp.selfPid inp.pidRunning inp.dumpOk inp.track inp.guid st.sets).1)
    ∧ (hookHandleActions inp marker
        = hookActionSyncOps inp.selfPid inp.track inp.actions
          ++ (List.replicate (killWaitPolls marker 0 60) Op.poll ++ [Op.terminate pt.pid])
      ∧ (killWaitPolls marker 0 60 = 60 ∨ marker (killWaitPolls marker 0 60) = true)) := by
  refine ⟨?_, ?_, ?_, ?_⟩
  · refine ⟨(if ActionBlacklist ∈ inp.actions then
        blacklistStep inp.selfPid inp.track st.blacklist else ([], st.blacklist)).1,
      reportOps (decide (ActionReport ∈ inp.actions)) (decide (ActionBrief ∈ inp.actions)) cfg.enableReporting
        ++ filedumpOps (decide (ActionFiledump ∈ inp.actions)) inp.fileCandidates
        ++ regdumpOps (decide (ActionRegdump ∈ inp.actions)) inp.regBinaryData
        ++ [Op.writeEventJson], ?_, ?_, ?_⟩
    · simp only [HandleActions, hgate, hhids, hdet]
      simp only [if_pos hkill, if_pos hmem, htrack, hself]
      simp [suspend_process, kill_process, htrack, hself]
    · intro p
      by_cases hb : ActionBlacklist ∈ inp.actions
      · simp only [if_pos hb, blacklistStep, htrack]
        by_cases h2 : pt.pid ≠ inp.selfPid <;> simp [h2]
      · simp [hb]
    · intro p
      simp only [List.mem_append, reportOps, filedumpOps, regdumpOps]
      rintro (((h | h) | h) | h) <;> revert h <;>
        first
          | (split <;> simp)
          | simp
  · intro hok hcall
    simp only [memdump, htrack] at hcall ⊢
    by_cases hg : inp.pidRunning = true ∧ pt.pid ≠ inp.selfPid ∧
        inp.guid ∉ st.sets.memdumped ∧ inp.guid ∉ st.sets.dumping
    · simp [hg, hok]
    · simp [hg] at hcall
  · simp only [hookHandleActions, hhids, if_neg hguid, hdet]
    simp only [Bool.false_eq_true, if_false, if_pos hguid]
    simp [if_pos hkill, hookKillOps, htrack, hself, hmem]
  · simpa using killWaitPolls_spec marker 60 0

/-- Witness input for the amended kill-ordering theorem: same detection as
the counterexample but with a succeeding snapshot call. -/
def c1WitInp : ActionInput :=
  { isHids := false, hasDetection := true, actions := [ActionKill, ActionMemdump],
    guid := "G", track := some c1FailTrack, pidRunning := true, dumpOk := true,
    regBinaryData := false, fileCandidates := [], selfPid := 1 }

/-- Marker function for the witness: the asynchronous dump has completed
before the first poll. -/
def c1WitMarker : Nat → Bool := fun _ => true

/-- Witness for the amended kill-ordering theorem at a concrete input. -/
theorem c1_kill_ordering_amended_witness :
    (∃ pre post,
      (HandleActions c1FailCfg c1WitInp c1FailSt).1
        = pre ++ Op.suspend c1FailTrack.pid ::
            ((memdump c1WitInp.selfPid c1WitInp.pidRunning c1WitInp.dumpOk c1WitInp.track
                c1WitInp.guid c1FailSt.sets).1
              ++ Op.terminate c1FailTrack.pid :: post)
      ∧ (∀ p, Op.terminate p ∉ pre)
      ∧ (∀ p, Op.memdumpCall p ∉ post))
    ∧ (c1WitInp.dumpOk = true →
        Op.memdumpCall c1FailTrack.pid ∈ (memdump c1WitInp.selfPid c1WitInp.pidRunning
          c1WitInp.dumpOk c1WitInp.track c1WitInp.guid c1FailSt.sets).1 →
        Op.markMemdumped c1WitInp.guid ∈ (memdump c1WitInp.selfPid c1WitInp.pidRunning
          c1WitInp.dumpOk c1WitInp.track c1WitInp.guid c1FailSt.sets).1)
    ∧ (hookHandleActions c1WitInp c1WitMarker
        = hookActionSyncOps c1WitInp.selfPid c1WitInp.track c1WitInp.actions
          ++ (List.replicate (killWaitPolls c1WitMarker 0 60) Op.poll
              ++ [Op.terminate c1FailTrack.pid])
      ∧ (killWaitPolls c1WitMarker 0 60 = 60
          ∨ c1WitMarker (killWaitPolls c1WitMarker 0 60) = true)) :=
  c1_kill_ordering_amended c1FailCfg c1WitInp c1FailSt c1FailTrack c1WitMarker
    rfl (by decide) (by decide) (by decide) (by decide) rfl rfl (by decide)

/-- C2: for an event whose resolved track has the agent's own PID, the
`suspend_process`, `kill_process` and `memdump` handlers of
`hids/actions.go` issue no OS call at all and leave the dedup state
unchanged — the destructive branch is unreachable for the agent itself. -/
theorem c2_self_protection (selfPid : Int) (pt : ProcessTrack)
    (pidRunning dumpOk : Bool) (guid : String) (s : DumpSets)
    (hself : pt.pid = selfPid) :
    suspend_process selfPid (some pt) = []
    ∧ kill_process selfPid (some pt) = []
    ∧ memdump selfPid pidRunning dumpOk (some pt) guid s = ([], s) := by
  subst hself
  refine ⟨?_, ?_, ?_⟩ <;> simp [suspend_process, kill_process, memdump]

/-- Witness for the self-protection theorem at a concrete input. -/
theorem c2_self_protection_witness :
    suspend_process 7 (some ⟨7, "G", "C:\\whids.exe", "whids"⟩) = []
    ∧ kill_process 7 (some ⟨7, "G", "C:\\whids.exe", "whids"⟩) = []
    ∧ memdump 7 true true (some ⟨7, "G", "C:\\whids.exe", "whids"⟩) "G" ⟨[], []⟩
        = ([], ⟨[], []⟩) :=
  c2_self_protection 7 ⟨7, "G", "C:\\whids.exe", "whids"⟩ true true "G" ⟨[], []⟩ rfl

/-- Detection used to refute the budget-independence claim: `kill` and
`blacklist` requested for tracked PID 42, but the per-GUID dump budget is
already exhausted (counter at the maximum of 2). -/
def c6FailInp : ActionInput :=
  { isHids := false, hasDetection := true, actions := [ActionKill, ActionBlacklist],
    guid := "G", track := some c1FailTrack, pidRunning := true, dumpOk := true,
    regBinaryData := false, fileCandidates := [], selfPid := 1 }

/-- Agent state for the C6 counterexample: dump counter at the maximum. -/
def c6FailSt : HState := { counts := [("G", 2)], sets := ⟨[], []⟩, blacklist := [] }

/-- C6 (counterexample): with the per-GUID dump budget exhausted,
`HandleActions` runs no action at all — in particular the requested `kill`
and `blacklist` are suppressed, refuting the claim that budget exhaustion
refuses only dump-class actions. -/
theorem c6_kill_regardless_counterexample :
    (ActionKill ∈ c6FailInp.actions ∧ ActionBlacklist ∈ c6FailInp.actions ∧
      c6FailInp.track = some c1FailTrack ∧ c1FailTrack.pid ≠ c6FailInp.selfPid ∧
      c6FailInp.isHids = false ∧ c6FailInp.hasDetection = true ∧
      (checkDumpCountOrInc c6FailSt.counts c6FailInp.guid c1FailCfg.maxDumps
        c1FailCfg.dumpUntracked).1 = false) ∧
    (HandleActions c1FailCfg c6FailInp c6FailSt).1 = [] := by
  decide

/-- C6 (amended): in `HandleActions` the synchronous `kill`/`suspend`/
`blacklist` actions are gated on the same per-GUID dump-budget check as the
dump actions: when the check fails the whole handler does nothing, and when
it passes a requested `kill` yields both the suspend and the terminate call
and a requested `blacklist` records the command line. -/
theorem c6_kill_gated_on_budget (cfg : ActionConfig) (inp : ActionInput) (st : HState) :
    ((checkDumpCountOrInc st.counts inp.guid cfg.maxDumps cfg.dumpUntracked).1 = false →
      (HandleActions cfg inp st).1 = [])
    ∧ (∀ pt : ProcessTrack,
        (checkDumpCountOrInc st.counts inp.guid cfg.maxDumps cfg.dumpUntracked).1 = true →
        inp.isHids = false → inp.hasDetection = true →
        inp.track = some pt → pt.pid ≠ inp.selfPid →
        (ActionKill ∈ inp.actions →
          Op.suspend pt.pid ∈ (HandleActions cfg inp st).1
          ∧ Op.terminate pt.pid ∈ (HandleActions cfg inp st).1)
        ∧ (ActionBlacklist ∈ inp.actions →
          Op.blacklistAdd pt.commandLine ∈ (HandleActions cfg inp st).1)) := by
  constructor
  · intro hgate
    simp [HandleActions, hgate]
  · intro pt hgate hhids hdet htrack hself
    constructor
    · intro hkill
      simp only [HandleActions, hgate, hhids, hdet]
      simp [if_pos hkill, suspend_process, kill_process, htrack, hself]
    · intro hbl
      simp only [HandleActions, hgate, hhids, hdet]
      simp [if_pos hbl, blacklistStep, htrack, hself]

/-- Witness for the amended budget-gating theorem at concrete inputs: the
refusal half at the exhausted-budget state, the execution half at a fresh
state with `kill` and `blacklist` requested. -/
theorem c6_kill_gated_on_budget_witness :
    (HandleActions c1FailCfg c6FailInp c6FailSt).1 = []
    ∧ (Op.suspend c1FailTrack.pid ∈ (HandleActions c1FailCfg c6FailInp c1FailSt).1
        ∧ Op.terminate c1FailTrack.pid ∈ (HandleActions c1FailCfg c6FailInp c1FailSt).1)
    ∧ Op.blacklistAdd c1FailTrack.commandLine ∈ (HandleActions c1FailCfg c6FailInp c1FailSt).1 := by
  refine ⟨(c6_kill_gated_on_budget c1FailCfg c6FailInp c6FailSt).1 (by decide), ?_, ?_⟩
  · exact ((c6_kill_gated_on_budget c1FailCfg c6FailInp c1FailSt).2 c1FailTrack
      (by decide) rfl rfl rfl (by decide)).1 (by decide)
  · exact ((c6_kill_gated_on_budget c1FailCfg c6FailInp c1FailSt).2 c1FailTrack
      (by decide) rfl rfl rfl (by decide)).2 (by decide)

end Whids

namespace Whids

/-- One memdump request as dispatched by the action code: target GUID and
PID, the agent's PID, and the OS-call outcomes (liveness check, snapshot
result). -/
structure MDRequest where
  guid : String
  pid : Int
  selfPid : Int
  pidRunning : Bool
  tracked : Bool
  dumpOk : Bool
deriving DecidableEq

/-- Observable events of the concurrent memory-dump model, tagged with the
index of the request that produced them: a snapshot attempt (the
`FullMemoryMiniDump` call starts) and a successful completion. -/
inductive MdEvent where
  | attempt (i : Nat) (guid : String)
  | success (i : Nat) (guid : String)
deriving DecidableEq

/-- Control point of one memdump request between its atomic operations:
not yet started, past the `memdumped.Contains` read, past the
`dumping.Contains` read, snapshot call in flight, finished (either skipped
at a check or completed). -/
inductive RStatus where
  | ready
  | memOk
  | chkOk
  | started
  | done
deriving DecidableEq

/-- Shared state of the memory-dump machinery: the two GUID sets of the
`HIDS` object, the per-request control points, and the event trace (most
recent event first). -/
structure MDConc where
  memdumped : List String
  dumping : List String
  procs : List (MDRequest × RStatus)
  trace : List MdEvent
deriving DecidableEq

/-- Interleaving alphabet for concurrent memdump requests, one label per
atomic operation of request `i`.  The guard of `ActionHandler.memdump`
(`hids/actions.go`) / `dumpPidAndCompress` (`hids/hookdefs.go`) is split
into its two unsynchronized set reads, and `dumping.Add` is a separate
step, because no lock spans check and add in the source. -/
inductive MDPhase where
  | checkMem (i : Nat)
  | checkDump (i : Nat)
  | startDump (i : Nat)
  | finishDump (i : Nat)
deriving DecidableEq

/-- One atomic operation of `ActionHandler.memdump` / `dumpPidAndCompress`:
`checkMem` evaluates `IsPIDRunning && pid != os.Getpid() &&
!memdumped.Contains(guid)` (the OS-call conjuncts are request-local
oracles, the set read is the shared access); `checkDump` evaluates
`!dumping.Contains(guid)`; `startDump` performs `dumping.Add(guid)` and
starts the snapshot call; `finishDump` completes the snapshot, on success
adds the GUID to `memdumped`, and runs the deferred `dumping.Del(guid)`.
A phase whose request is not at the matching control point is a no-op, so
every real interleaving of concurrent requests is a schedule. -/
def mdStep (st : MDConc) : MDPhase → MDConc
  | .checkMem i =>
      match st.procs.get? i with
      | some (r, RStatus.ready) =>
          if r.tracked = true ∧ r.pidRunning = true ∧ r.pid ≠ r.selfPid ∧
              r.guid ∉ st.memdumped then
            { st with procs := st.procs.set i (r, RStatus.memOk) }
          else { st with procs := st.procs.set i (r, RStatus.done) }
      | _ => st
  | .checkDump i =>
      match st.procs.get? i with
      | some (r, RStatus.memOk) =>
          if r.guid ∉ st.dumping then
            { st with procs := st.procs.set i (r, RStatus.chkOk) }
          else { st with procs := st.procs.set i (r, RStatus.done) }
      | _ => st
  | .startDump i =>
      match st.procs.get? i with
      | some (r, RStatus.chkOk) =>
          { st with
              procs := st.procs.set i (r, RStatus.started)
              dumping := r.guid :: st.dumping
              trace := MdEvent.attempt i r.guid :: st.trace }
      | _ => st
  | .finishDump i =>
      match st.procs.get? i with
      | some (r, RStatus.started) =>
          { st with
              procs := st.procs.set i (r, RStatus.done)
              dumping := st.dumping.erase r.guid
              memdumped := if r.dumpOk then r.guid :: st.memdumped else st.memdumped
              trace := if r.dumpOk then MdEvent.success i r.guid :: st.trace else st.trace }
      | _ => st

/-- Initial state for a batch of concurrent memdump requests: empty dedup
sets, every request at its entry point. -/
def mdInit (reqs : List MDRequest) : MDConc :=
  { memdumped := []
    dumping := []
    procs := reqs.map (fun r => (r, RStatus.ready))
    trace := [] }

/-- Run of one interleaving of the requests' atomic operations. -/
def mdRun (reqs : List MDRequest) (sched : List MDPhase) : MDConc :=
  sched.foldl mdStep (mdInit reqs)

/-- Number of successful full-memory snapshots taken for a GUID. -/
def countSuccessFor (g : String) : List MdEvent → Nat
  | [] => 0
  | MdEvent.success _ gq :: rest => (if gq = g then 1 else 0) + countSuccessFor g rest
  | _ :: rest => countSuccessFor g rest

/-- Two qualifying memdump requests for the same GUID (tracked, running,
non-agent PID 42, snapshot call succeeding). -/
def c3Req : MDRequest :=
  { guid := "G"
    pid := 42
    selfPid := 1
    pidRunning := true
    tracked := true
    dumpOk := true }

/-- The racy interleaving: both requests read `memdumped` and `dumping`
before either performs `dumping.Add`, then both snapshot. -/
def c3RaceSched : List MDPhase :=
  [.checkMem 0, .checkDump 0, .checkMem 1, .checkDump 1,
   .startDump 0, .startDump 1, .finishDump 0, .finishDump 1]

/-- Fold of dump-budget checks over a sequence of requested GUIDs, as issued
by every dump path before doing work. -/
def runDumpChecks (maxD : Nat) (unt : Bool) (gs : List String)
    (counts : List (String × Nat)) : List (String × Nat) :=
  gs.foldl (fun cs gd => (checkDumpCountOrInc cs gd maxD unt).2) counts

/-- Updating a present key makes lookup return the new value. -/
theorem assocGet_assocSet_self (l : List (String × Nat)) (k : String) (v c : Nat)
    (h : assocGet l k = some c) : assocGet (assocSet l k v) k = some v := by
  induction l with
  | nil => simp [assocGet] at h
  | cons p rest ih =>
      by_cases hk : p.1 = k
      · simp [assocSet, assocGet, hk]
      · simp only [assocSet, assocGet, hk, if_neg hk] at h ⊢
        exact ih h

/-- Updating one key leaves lookups of other keys unchanged. -/
theorem assocGet_assocSet_ne (l : List (String × Nat)) (k k' : String) (v : Nat)
    (h : k ≠ k') : assocGet (assocSet l k v) k' = assocGet l k' := by
  induction l with
  | nil => simp [assocSet]
  | cons p rest ih =>
      by_cases hk : p.1 = k
      · simp [assocSet, assocGet, hk, h]
      · simp only [assocSet, if_neg hk, assocGet]
        by_cases hk2 : p.1 = k' <;> simp [hk2, ih]

/-- One budget check never pushes a stored counter above the maximum. -/
theorem checkDumpCountOrInc_bounded (maxD : Nat) (unt : Bool)
    (counts : List (String × Nat)) (g gd : String)
    (h : ∀ c, assocGet counts g = some c → c ≤ maxD) :
    ∀ c, assocGet (checkDumpCountOrInc counts gd maxD unt).2 g = some c → c ≤ maxD := by
  intro c hc
  cases hg : assocGet counts gd with
  | none =>
      have he : (checkDumpCountOrInc counts gd maxD unt).2 = counts := by
        simp [checkDumpCountOrInc, hg]
      rw [he] at hc
      exact h c hc
  | some c0 =>
      by_cases hlt : c0 < maxD
      · have he : (checkDumpCountOrInc counts gd maxD unt).2 = assocSet counts gd (c0 + 1) := by
          simp [checkDumpCountOrInc, hg, hlt]
        rw [he] at hc
        by_cases hgg : gd = g
        · subst hgg
          rw [assocGet_assocSet_self counts gd (c0 + 1) c0 hg] at hc
          cases hc
          omega
        · rw [assocGet_assocSet_ne counts gd g (c0 + 1) hgg] at hc
          exact h c hc
      · have he : (checkDumpCountOrInc counts gd maxD unt).2 = counts := by
          simp [checkDumpCountOrInc, hg, hlt]
        rw [he] at hc
        exact h c hc

/-- The counter bound is preserved over any sequence of budget checks. -/
theorem runDumpChecks_bounded (maxD : Nat) (unt : Bool) (g : String) :
    ∀ (gs : List String) (counts : List (String × Nat)),
      (∀ c, assocGet counts g = some c → c ≤ maxD) →
      ∀ c, assocGet (runDumpChecks maxD unt gs counts) g = some c → c ≤ maxD := by
  intro gs
  induction gs with
  | nil => intro counts h; simpa [runDumpChecks] using h
  | cons gd rest ih =>
      intro counts h
      simp only [runDumpChecks, List.foldl_cons]
      exact ih _ (checkDumpCountOrInc_bounded maxD unt counts g gd h)

/-- C4: the stored per-GUID dump counter never exceeds the configured
maximum across any sequence of atomically check-and-incremented budget
checks; and once the counter for a GUID has reached the maximum, the next
check for that GUID is refused with the counters unchanged, and
`HandleActions` on any further detection for that GUID performs nothing at
all — zero new artifacts. -/
theorem c4_dump_budget (maxD : Nat) (unt : Bool) (counts : List (String × Nat)) (g : String) :
    ((∀ c, assocGet counts g = some c → c ≤ maxD) →
      ∀ (gs : List String) (c : Nat),
        assocGet (runDumpChecks maxD unt gs counts) g = some c → c ≤ maxD)
    ∧ (assocGet counts g = some maxD →
        checkDumpCountOrInc counts g maxD unt = (false, counts)
        ∧ ∀ (cfg : ActionConfig) (inp : ActionInput) (st : HState),
            cfg.maxDumps = maxD → cfg.dumpUntracked = unt →
            st.counts = counts → inp.guid = g →
            (HandleActions cfg inp st).1 = []) := by
  constructor
  · intro h gs
    exact runDumpChecks_bounded maxD unt g gs counts h
  · intro hmax
    have hrefuse : checkDumpCountOrInc counts g maxD unt = (false, counts) := by
      simp [checkDumpCountOrInc, hmax]
    refine ⟨hrefuse, ?_⟩
    intro cfg inp st h1 h2 h3 h4
    have hfalse : (checkDumpCountOrInc st.counts inp.guid cfg.maxDumps cfg.dumpUntracked).1 = false := by
      rw [h1, h2, h3, h4, hrefuse]
    simp [HandleActions, hfalse]

/-- Witness for the dump-budget theorem at a concrete exhausted counter. -/
theorem c4_dump_budget_witness :
    (∀ c, assocGet (runDumpChecks 2 false ["G", "G"] [("G", 2)]) "G" = some c → c ≤ 2)
    ∧ (checkDumpCountOrInc [("G", 2)] "G" 2 false = (false, [("G", 2)])
      ∧ (HandleActions c1FailCfg c6FailInp c6FailSt).1 = []) := by
  refine ⟨fun c => (c4_dump_budget 2 false [("G", 2)] "G").1
    (by intro c0 hc0; simp [assocGet] at hc0; omega) ["G", "G"] c, ?_⟩
  have h := (c4_dump_budget 2 false [("G", 2)] "G").2 (by simp [assocGet])
  exact ⟨h.1, h.2 c1FailCfg c6FailInp c6FailSt rfl rfl rfl rfl⟩

/-- C3: the `memdumped`/`dumping` Contains checks and the `dumping.Add` of
the memdump guard are separate unsynchronized operations, so two concurrent
qualifying requests for the same GUID that both pass their checks before
either inserts into the in-flight set each run `FullMemoryMiniDump` and each
succeed — two successful full-memory snapshots for one GUID, against the
claim (and the code's own stated purpose of the in-flight set) that a
process is memory-dumped at most once. -/
theorem c3_memdump_race_double_dump :
    countSuccessFor "G" (mdRun [c3Req, c3Req] c3RaceSched).trace = 2
    ∧ MdEvent.success 0 "G" ∈ (mdRun [c3Req, c3Req] c3RaceSched).trace
    ∧ MdEvent.success 1 "G" ∈ (mdRun [c3Req, c3Req] c3RaceSched).trace
    ∧ ¬(countSuccessFor "G" (mdRun [c3Req, c3Req] c3RaceSched).trace ≤ 1) := by
  decide

end Whids

namespace Whids

/-- One `dumpFile` call's inputs (`hids/actions.go`): source and destination
paths, the `fsutil.IsFile` / `utils.IsPipePath` answers for the source, the
`file.Sha256` outcome, and the source's byte content. -/
structure FileReq where
  src : String
  dst : String
  isFile : Bool
  isPipe : Bool
  sha : Option String
  content : String
deriving DecidableEq

/-- Dump-store state touched by `dumpFile`: the content-hash dedup set
`filedumped` and the `.sha256` sidecars and file bodies written so far. -/
structure FDState where
  filedumped : List String
  sidecars : List (String × String)
  bodies : List (String × String)
deriving DecidableEq

/-- Embedding of `ActionHandler.dumpFile` (`hids/actions.go`): skip non-regular and pipe
paths silently; fail if hashing fails; always write the `.sha256` sidecar;
copy the body and record the hash only when the hash is not yet in the
dedup set.  The returned Bool is success (`err == nil`); write calls
themselves are assumed to succeed, as the claim is about what is written. -/
def dumpFile (r : FileReq) (st : FDState) : FDState × Bool :=
  if r.isFile = false ∨ r.isPipe = true then (st, true)
  else
    match r.sha with
    | none => (st, false)
    | some h =>
        let st1 : FDState := { st with sidecars := (r.dst ++ ".sha256", h) :: st.sidecars }
        if h ∈ st1.filedumped then (st1, true)
        else ({ st1 with
                  bodies := (r.dst, r.content) :: st1.bodies
                  filedumped := h :: st1.filedumped }, true)

/-- C5: two `dumpFile` requests whose sources hash to the same SHA-256 both
write a `.sha256` sidecar recording that hash, both return success, but the
body is copied into the dump store only by the first request — the second
leaves the stored bodies unchanged. -/
theorem c5_filedump_dedup (r1 r2 : FileReq) (st0 : FDState) (h : String)
    (h1f : r1.isFile = true) (h1p : r1.isPipe = false) (h1s : r1.sha = some h)
    (h2f : r2.isFile = true) (h2p : r2.isPipe = false) (h2s : r2.sha = some h)
    (hnew : h ∉ st0.filedumped) :
    (dumpFile r1 st0).2 = true
    ∧ (dumpFile r2 (dumpFile r1 st0).1).2 = true
    ∧ (dumpFile r1 st0).1.bodies = (r1.dst, r1.content) :: st0.bodies
    ∧ (dumpFile r2 (dumpFile r1 st0).1).1.bodies = (dumpFile r1 st0).1.bodies
    ∧ (dumpFile r2 (dumpFile r1 st0).1).1.sidecars
        = (r2.dst ++ ".sha256", h) :: (r1.dst ++ ".sha256", h) :: st0.sidecars := by
  have e1 : dumpFile r1 st0
      = ({ filedumped := h :: st0.filedumped,
           sidecars := (r1.dst ++ ".sha256", h) :: st0.sidecars,
           bodies := (r1.dst, r1.content) :: st0.bodies }, true) := by
    simp [dumpFile, h1f, h1p, h1s, hnew]
  have e2 : dumpFile r2 (dumpFile r1 st0).1
      = ({ filedumped := h :: st0.filedumped,
           sidecars := (r2.dst ++ ".sha256", h) :: (r1.dst ++ ".sha256", h) :: st0.sidecars,
           bodies := (r1.dst, r1.content) :: st0.bodies }, true) := by
    rw [e1]
    simp [dumpFile, h2f, h2p, h2s]
  rw [e2, e1]
  exact ⟨rfl, rfl, rfl, rfl, rfl⟩

/-- Witness for the filedump-dedup theorem: same content reached via two
paths. -/
theorem c5_filedump_dedup_witness :
    (dumpFile ⟨"C:\\a", "d1", true, false, some "H", "BODY"⟩ ⟨[], [], []⟩).2 = true
    ∧ (dumpFile ⟨"C:\\b", "d2", true, false, some "H", "BODY"⟩
        (dumpFile ⟨"C:\\a", "d1", true, false, some "H", "BODY"⟩ ⟨[], [], []⟩).1).2 = true
    ∧ (dumpFile ⟨"C:\\a", "d1", true, false, some "H", "BODY"⟩ ⟨[], [], []⟩).1.bodies
        = [("d1", "BODY")]
    ∧ (dumpFile ⟨"C:\\b", "d2", true, false, some "H", "BODY"⟩
        (dumpFile ⟨"C:\\a", "d1", true, false, some "H", "BODY"⟩ ⟨[], [], []⟩).1).1.bodies
        = (dumpFile ⟨"C:\\a", "d1", true, false, some "H", "BODY"⟩ ⟨[], [], []⟩).1.bodies
    ∧ (dumpFile ⟨"C:\\b", "d2", true, false, some "H", "BODY"⟩
        (dumpFile ⟨"C:\\a", "d1", true, false, some "H", "BODY"⟩ ⟨[], [], []⟩).1).1.sidecars
        = [("d2" ++ ".sha256", "H"), ("d1" ++ ".sha256", "H")] :=
  c5_filedump_dedup ⟨"C:\\a", "d1", true, false, some "H", "BODY"⟩
    ⟨"C:\\b", "d2", true, false, some "H", "BODY"⟩ ⟨[], [], []⟩ "H"
    rfl rfl rfl rfl rfl rfl (by simp)

end Whids

namespace Whids

/-- Typed field values of a telemetry event (`evtx.GoEvtxMap` accessors). -/
inductive FieldVal where
  | s (v : String)
  | b (v : Bool)
  | i (v : Int)
deriving DecidableEq

/-- A telemetry event: numeric event id plus named data fields. -/
structure EvtxEvent where
  eventID : Nat
  fields : List (String × FieldVal)
deriving DecidableEq

/-- Field lookup by name. -/
def findVal : List (String × FieldVal) → String → Option FieldVal
  | [], _ => none
  | (k, v) :: rest, p => if k = p then some v else findVal rest p

/-- Field update by name (`e.Set`): replace if present, append otherwise. -/
def fsetList : List (String × FieldVal) → String → FieldVal → List (String × FieldVal)
  | [], p, v => [(p, v)]
  | (k, w) :: rest, p, v =>
      if k = p then (k, v) :: rest else (k, w) :: fsetList rest p v

/-- Raw field read (`e.Get`). -/
def eget (e : EvtxEvent) (p : String) : Option FieldVal := findVal e.fields p

/-- Field write (`e.Set`). -/
def eset (e : EvtxEvent) (p : String) (v : FieldVal) : EvtxEvent :=
  { e with fields := fsetList e.fields p v }

/-- Typed string read (`e.GetString`): a missing or differently-typed field
is an error. -/
def egetS (e : EvtxEvent) (p : String) : Option String :=
  match eget e p with
  | some (FieldVal.s v) => some v
  | _ => none

/-- Typed bool read (`e.GetBool`). -/
def egetB (e : EvtxEvent) (p : String) : Option Bool :=
  match eget e p with
  | some (FieldVal.b v) => some v
  | _ => none

/-- Typed int read (`e.GetInt`). -/
def egetI (e : EvtxEvent) (p : String) : Option Int :=
  match eget e p with
  | some (FieldVal.i v) => some v
  | _ => none

/-- Event-field names used by the embedded hooks. -/
def pathSysmonCommandLine : String := "CommandLine"
def pathSysmonProcessId : String := "ProcessId"
def pathSysmonImage : String := "Image"
def pathSysmonParentImage : String := "ParentImage"
def pathSysmonProcessGUID : String := "ProcessGuid"
def pathSysmonParentProcessGUID : String := "ParentProcessGuid"
def pathSysmonSigned : String := "Signed"
def pathSysmonSignature : String := "Signature"
def pathSysmonSignatureStatus : String := "SignatureStatus"
def pathImageLoadParentImage : String := "ParentImage"
def pathImageLoadParentCommandLine : String := "ParentCommandLine"

/-- Reading a field just written returns the written value. -/
theorem findVal_fsetList_self (l : List (String × FieldVal)) (p : String) (v : FieldVal) :
    findVal (fsetList l p v) p = some v := by
  induction l with
  | nil => simp [fsetList, findVal]
  | cons kv rest ih =>
      by_cases hk : kv.1 = p
      · simp [fsetList, findVal, hk]
      · simp [fsetList, findVal, hk, ih]

/-- Writing one field leaves the others unchanged. -/
theorem findVal_fsetList_ne (l : List (String × FieldVal)) (p p' : String) (v : FieldVal)
    (h : p ≠ p') : findVal (fsetList l p v) p' = findVal l p' := by
  induction l with
  | nil => simp [fsetList, findVal, h]
  | cons kv rest ih =>
      by_cases hk : kv.1 = p
      · simp [fsetList, findVal, hk, h]
      · simp only [fsetList, if_neg hk, findVal]
        by_cases hk2 : kv.1 = p' <;> simp [hk2, ih]

/-- String read after writing the same string field. -/
theorem egetS_eset_s_self (e : EvtxEvent) (p : String) (v : String) :
    egetS (eset e p (FieldVal.s v)) p = some v := by
  simp [egetS, eget, eset, findVal_fsetList_self]

/-- Raw read after writing a different field. -/
theorem eget_eset_ne (e : EvtxEvent) (p p' : String) (v : FieldVal) (h : p ≠ p') :
    eget (eset e p v) p' = eget e p' := by
  simp [eget, eset, findVal_fsetList_ne _ _ _ _ h]

/-- String read after writing a different field. -/
theorem egetS_eset_ne (e : EvtxEvent) (p p' : String) (v : FieldVal) (h : p ≠ p') :
    egetS (eset e p v) p' = egetS e p' := by
  simp [egetS, eget_eset_ne _ _ _ _ h]

/-- Bool read after writing a different field. -/
theorem egetB_eset_ne (e : EvtxEvent) (p p' : String) (v : FieldVal) (h : p ≠ p') :
    egetB (eset e p v) p' = egetB e p' := by
  simp [egetB, eget_eset_ne _ _ _ _ h]

end Whids

namespace Whids

/-- Modelled from the spec: the `terminate(pid)` helper called by
`hookTerminator` is not under `src/`.  Per the spec the terminator routine
"kills matches (self-protection: never targets the agent's own PID)", so
the helper issues the terminate call only for a PID other than the agent's. -/
def terminate (selfPid pid : Int) : List Op :=
  if pid ≠ selfPid then [Op.terminate pid] else []

/-- Modelled from the spec: `ProcessTracker.IsBlacklisted` is not under
`src/`; per the spec it is an "exact-match command-line blacklist". -/
def IsBlacklisted (bl : List String) (cl : String) : Bool := decide (cl ∈ bl)

/-- Embedding of `hookTerminator` (`hids/hookdefs.go`): on a process-creation event whose
command line is blacklisted, terminate the created PID. -/
def hookTerminator (selfPid : Int) (bl : List String) (e : EvtxEvent) : List Op :=
  if e.eventID = SysmonProcessCreate then
    match egetS e pathSysmonCommandLine with
    | some cl =>
        match egetI e pathSysmonProcessId with
        | some pid =>
            if IsBlacklisted bl cl then terminate selfPid pid else []
        | none => []
    | none => []
  else []

/-- C7: the terminator hook kills every process-creation whose command line
exactly matches a blacklist entry, and never issues a terminate call against
the agent's own PID. -/
theorem c7_terminator (selfPid : Int) (bl : List String) :
    (∀ e : EvtxEvent, Op.terminate selfPid ∉ hookTerminator selfPid bl e)
    ∧ (∀ (e : EvtxEvent) (cl : String) (pid : Int),
        e.eventID = SysmonProcessCreate →
        egetS e pathSysmonCommandLine = some cl →
        egetI e pathSysmonProcessId = some pid →
        IsBlacklisted bl cl = true → pid ≠ selfPid →
        hookTerminator selfPid bl e = [Op.terminate pid]) := by
  constructor
  · intro e hmem
    unfold hookTerminator at hmem
    split at hmem
    · split at hmem
      · split at hmem
        · split at hmem
          · unfold terminate at hmem
            split at hmem
            · rename_i hpid
              simp at hmem
              exact hpid (by rw [hmem])
            · simp at hmem
          · simp at hmem
        · simp at hmem
      · simp at hmem
    · simp at hmem
  · intro e cl pid hid hcl hpid hbl hne
    simp [hookTerminator, hid, hcl, hpid, hbl, terminate, hne]

/-- Witness for the terminator theorem at a concrete blacklisted creation. -/
theorem c7_terminator_witness :
    (Op.terminate (7 : Int) ∉ hookTerminator 7 ["evil.exe x"]
      ⟨1, [(pathSysmonCommandLine, FieldVal.s "evil.exe x"),
           (pathSysmonProcessId, FieldVal.i 42)]⟩)
    ∧ hookTerminator 7 ["evil.exe x"]
        ⟨1, [(pathSysmonCommandLine, FieldVal.s "evil.exe x"),
             (pathSysmonProcessId, FieldVal.i 42)]⟩ = [Op.terminate 42] :=
  ⟨(c7_terminator 7 ["evil.exe x"]).1 _,
    (c7_terminator 7 ["evil.exe x"]).2 _ "evil.exe x" 42 rfl (by decide) (by decide)
      (by decide) (by decide)⟩

end Whids

namespace Whids

/-- Track fields read and written by `hookImageLoad`. -/
structure ImgTrack where
  image : String
  signed : Bool
  signature : String
  signatureStatus : String
  parentImage : String
  parentCommandLine : String
deriving DecidableEq

/-- Embedding of `hookImageLoad` (`hids/hookdefs.go`): default the parent fields to "?";
for a tracked GUID, backfill the track's signing fields only when the loaded
image is the track's own image (not one of its DLLs), and set the event's
parent image / parent command line from the track.  The returned track is
the (possibly updated) pointed-to track of the store. -/
def hookImageLoad (store : String → Option ImgTrack) (e : EvtxEvent) :
    EvtxEvent × Option ImgTrack :=
  let e1 := eset (eset e pathImageLoadParentImage (FieldVal.s "?"))
    pathImageLoadParentCommandLine (FieldVal.s "?")
  match egetS e1 pathSysmonProcessGUID with
  | some guid =>
      match store guid with
      | some track =>
          let track1 :=
            match egetS e1 pathSysmonImage with
            | some image =>
                if image = track.image then
                  let t1 := match egetB e1 pathSysmonSigned with
                    | some signed => { track with signed := signed }
                    | none => track
                  let t2 := match egetS e1 pathSysmonSignature with
                    | some signature => { t1 with signature := signature }
                    | none => t1
                  match egetS e1 pathSysmonSignatureStatus with
                  | some sigStatus => { t2 with signatureStatus := sigStatus }
                  | none => t2
                else track
            | none => track
          let e2 := eset (eset e1 pathImageLoadParentImage (FieldVal.s track1.parentImage))
            pathImageLoadParentCommandLine (FieldVal.s track1.parentCommandLine)
          (e2, some track1)
      | none => (e1, none)
  | none => (e1, none)

/-- C9: on an image-load event for a tracked GUID whose loaded image differs
from the track's own image, the track's Signed/Signature/SignatureStatus
fields are untouched (the whole track is unchanged), while the event still
receives the parent image and parent command line from the track. -/
theorem c9_image_load (store : String → Option ImgTrack) (e : EvtxEvent)
    (g img : String) (tr : ImgTrack)
    (hg : egetS e pathSysmonProcessGUID = some g)
    (ht : store g = some tr)
    (him : egetS e pathSysmonImage = some img)
    (hne : img ≠ tr.image) :
    (hookImageLoad store e).2 = some tr
    ∧ egetS (hookImageLoad store e).1 pathImageLoadParentImage = some tr.parentImage
    ∧ egetS (hookImageLoad store e).1 pathImageLoadParentCommandLine
        = some tr.parentCommandLine := by
  have hg1 : egetS (eset (eset e pathImageLoadParentImage (FieldVal.s "?"))
      pathImageLoadParentCommandLine (FieldVal.s "?")) pathSysmonProcessGUID = some g := by
    rw [egetS_eset_ne _ _ _ _ (by decide), egetS_eset_ne _ _ _ _ (by decide)]
    exact hg
  have him1 : egetS (eset (eset e pathImageLoadParentImage (FieldVal.s "?"))
      pathImageLoadParentCommandLine (FieldVal.s "?")) pathSysmonImage = some img := by
    rw [egetS_eset_ne _ _ _ _ (by decide), egetS_eset_ne _ _ _ _ (by decide)]
    exact him
  unfold hookImageLoad
  simp only [hg1, ht, him1, if_neg hne]
  refine ⟨trivial, ?_, ?_⟩
  · rw [egetS_eset_ne _ _ _ _ (by decide), egetS_eset_s_self]
  · rw [egetS_eset_s_self]

/-- Witness for the image-load frame theorem: a DLL load into a tracked
process. -/
theorem c9_image_load_witness :
    (hookImageLoad
      (fun g => if g = "G" then some ⟨"C:\\p.exe", false, "sig", "ok", "C:\\parent.exe", "parent -x"⟩ else none)
      ⟨7, [(pathSysmonProcessGUID, FieldVal.s "G"),
           (pathSysmonImage, FieldVal.s "C:\\mod.dll"),
           (pathSysmonSigned, FieldVal.b true),
           (pathSysmonSignature, FieldVal.s "other"),
           (pathSysmonSignatureStatus, FieldVal.s "bad")]⟩).2
      = some ⟨"C:\\p.exe", false, "sig", "ok", "C:\\parent.exe", "parent -x"⟩
    ∧ egetS (hookImageLoad
      (fun g => if g = "G" then some ⟨"C:\\p.exe", false, "sig", "ok", "C:\\parent.exe", "parent -x"⟩ else none)
      ⟨7, [(pathSysmonProcessGUID, FieldVal.s "G"),
           (pathSysmonImage, FieldVal.s "C:\\mod.dll"),
           (pathSysmonSigned, FieldVal.b true),
           (pathSysmonSignature, FieldVal.s "other"),
           (pathSysmonSignatureStatus, FieldVal.s "bad")]⟩).1 pathImageLoadParentImage
      = some "C:\\parent.exe"
    ∧ egetS (hookImageLoad
      (fun g => if g = "G" then some ⟨"C:\\p.exe", false, "sig", "ok", "C:\\parent.exe", "parent -x"⟩ else none)
      ⟨7, [(pathSysmonProcessGUID, FieldVal.s "G"),
           (pathSysmonImage, FieldVal.s "C:\\mod.dll"),
           (pathSysmonSigned, FieldVal.b true),
           (pathSysmonSignature, FieldVal.s "other"),
           (pathSysmonSignatureStatus, FieldVal.s "bad")]⟩).1 pathImageLoadParentCommandLine
      = some "parent -x" :=
  c9_image_load _ _ "G" "C:\\mod.dll" ⟨"C:\\p.exe", false, "sig", "ok", "C:\\parent.exe", "parent -x"⟩
    (by decide) (by decide) (by decide) (by decide)

end Whids

namespace Whids

/-- Embedding of `hookSelfGUID` (`hids/hookdefs.go`): when the agent's GUID is still
unknown (empty), on a process-creation event try the parent image first and
then the image against the agent's executable path, taking the matching
GUID field; otherwise leave the stored GUID alone. -/
def hookSelfGUID (selfPath : String) (g : String) (e : EvtxEvent) : String :=
  if g = "" then
    if e.eventID = SysmonProcessCreate then
      match (match egetS e pathSysmonParentImage with
             | some pimage =>
                 if pimage = selfPath then egetS e pathSysmonParentProcessGUID else none
             | none => none) with
      | some pguid => pguid
      | none =>
          match (match egetS e pathSysmonImage with
                 | some image =>
                     if image = selfPath then egetS e pathSysmonProcessGUID else none
                 | none => none) with
          | some guid => guid
          | none => g
    else g
  else g

/-- C10: the agent's self GUID is assigned at most once — `hookSelfGUID`
changes the stored GUID only while it is still the empty string, and once it
is non-empty no later event (nor any sequence of later events) overwrites it. -/
theorem c10_self_guid (selfPath : String) :
    (∀ (g : String) (e : EvtxEvent), hookSelfGUID selfPath g e ≠ g → g = "")
    ∧ (∀ g : String, g ≠ "" →
        (∀ e : EvtxEvent, hookSelfGUID selfPath g e = g)
        ∧ (∀ es : List EvtxEvent,
            es.foldl (fun acc ev => hookSelfGUID selfPath acc ev) g = g)) := by
  constructor
  · intro g e hch
    by_contra hg
    exact hch (by simp [hookSelfGUID, hg])
  · intro g hne
    have hstep : ∀ e : EvtxEvent, hookSelfGUID selfPath g e = g := by
      intro e
      simp [hookSelfGUID, hne]
    refine ⟨hstep, ?_⟩
    intro es
    induction es with
    | nil => rfl
    | cons e rest ih =>
        simp only [List.foldl_cons, hstep e]
        exact ih

/-- Witness for the self-GUID theorem: a non-empty stored GUID survives an
event whose image matches the agent's path. -/
theorem c10_self_guid_witness :
    (hookSelfGUID "C:\\whids.exe" "{A}"
      ⟨1, [(pathSysmonImage, FieldVal.s "C:\\whids.exe"),
           (pathSysmonProcessGUID, FieldVal.s "{B}")]⟩ = "{A}")
    ∧ List.foldl (fun acc ev => hookSelfGUID "C:\\whids.exe" acc ev) "{A}"
        [⟨1, [(pathSysmonParentImage, FieldVal.s "C:\\whids.exe"),
              (pathSysmonParentProcessGUID, FieldVal.s "{C}")]⟩] = "{A}" :=
  ⟨((c10_self_guid "C:\\whids.exe").2 "{A}" (by decide)).1 _,
    ((c10_self_guid "C:\\whids.exe").2 "{A}" (by decide)).2 _⟩

end Whids

namespace Whids

/-- Embedding of `filepath.Ext`: the suffix of the name starting at its final dot, empty
when there is no dot. -/
def fileExt (s : String) : String :=
  let rev := s.data.reverse
  if rev.contains '.' then
    String.mk ('.' :: (rev.takeWhile (fun c => c ≠ '.')).reverse)
  else ""

/-- Failure oracle for one run of `admAPIRulesSave`: whether creating the
temporary file fails, whether the i-th rule write fails, and whether the
final rename fails. -/
structure SaveOracle where
  createFails : Bool
  writeFails : Nat → Bool
  renameFails : Bool

/-- The rule-writing loop of `admAPIRulesSave`: append `raw(name) + newline`
per rule to the temp file, stopping with an error at the first failed write.
Returns the lines written and whether every write succeeded. -/
def writeRulesAux (raw : String → String) (wf : Nat → Bool) :
    List String → Nat → List String → List String × Bool
  | [], _, acc => (acc, true)
  | n :: rest, i, acc =>
      if wf i then (acc, false)
      else writeRulesAux raw wf rest (i + 1) (acc ++ [raw n ++ "\n"])

/-- Embedding of `Manager.admAPIRulesSave` (`api/manager_admin_api.go`) acting on the
rules directory, with file names relative to it.  In source order: create
`compiled-updated.gen.tmp` (abort, filesystem untouched, on failure); delete
every existing file whose extension is a rule extension
(`engine.DefaultRuleExtensions`, a parameter here); write each rule of the
engine to the temp file, aborting with an error on a failed write; close and
rename the temp file over `compiled-updated.gen` only after every write
succeeded.  Result: the directory contents and the success flag. -/
def admAPIRulesSave (ruleExts : List String) (ruleNames : List String)
    (raw : String → String) (o : SaveOracle) (fs : List (String × String)) :
    List (String × String) × Bool :=
  if o.createFails then (fs, false)
  else
    let survivors := fs.filter (fun f => !(ruleExts.contains (fileExt f.1)))
    let w := writeRulesAux raw o.writeFails ruleNames 0 []
    let tmpContent := String.join w.1
    if w.2 = false then
      (("compiled-updated.gen.tmp", tmpContent) :: survivors, false)
    else if o.renameFails then
      (("compiled-updated.gen.tmp", tmpContent) :: survivors, false)
    else
      (("compiled-updated.gen", tmpContent) :: survivors, true)

/-- C8 (counterexample): with one persisted rule file `a.gen` and a failure
while writing the second rule, the rewrite stops with an error as claimed —
but the original `a.gen` has already been deleted, so the original on-disk
rule files are not left untouched. -/
theorem c8_rules_save_counterexample :
    (admAPIRulesSave [".gen"] ["r1", "r2"] (fun r => r)
      ⟨false, fun i => decide (i = 1), false⟩ [("a.gen", "orig")]).2 = false
    ∧ ("a.gen", "orig") ∉ (admAPIRulesSave [".gen"] ["r1", "r2"] (fun r => r)
      ⟨false, fun i => decide (i = 1), false⟩ [("a.gen", "orig")]).1 := by
  decide

/-- C8 (amended): if creating the temporary file fails the operation stops
with an error and the directory is untouched; the temporary file is renamed
over the rule file only after every rule write has succeeded; but the
existing rule files are deleted before the new content is written, so a
failure while writing a rule stops with an error with the original rule
files already removed (only the partial temp file and non-rule files
remain). -/
theorem c8_rules_save_amended (ruleExts ruleNames : List String) (raw : String → String)
    (o : SaveOracle) (fs : List (String × String))
    (htmp : ruleExts.contains ".tmp" = false) :
    (o.createFails = true → admAPIRulesSave ruleExts ruleNames raw o fs = (fs, false))
    ∧ ((admAPIRulesSave ruleExts ruleNames raw o fs).2 = true →
        o.createFails = false ∧ (writeRulesAux raw o.writeFails ruleNames 0 []).2 = true
        ∧ o.renameFails = false)
    ∧ (o.createFails = false → (writeRulesAux raw o.writeFails ruleNames 0 []).2 = false →
        (admAPIRulesSave ruleExts ruleNames raw o fs).2 = false
        ∧ ∀ f ∈ fs, ruleExts.contains (fileExt f.1) = true →
            f ∉ (admAPIRulesSave ruleExts ruleNames raw o fs).1) := by
  refine ⟨?_, ?_, ?_⟩
  · intro hc
    simp [admAPIRulesSave, hc]
  · intro hs
    by_cases hc : o.createFails
    · simp [admAPIRulesSave, hc] at hs
    · refine ⟨by simpa using hc, ?_, ?_⟩
      · by_cases hw : (writeRulesAux raw o.writeFails ruleNames 0 []).2 = false
        · simp [admAPIRulesSave, hc, hw] at hs
        · simpa using hw
      · by_cases hw : (writeRulesAux raw o.writeFails ruleNames 0 []).2 = false
        · simp [admAPIRulesSave, hc, hw] at hs
        · by_cases hr : o.renameFails
          · simp [admAPIRulesSave, hc, hw, hr] at hs
          · simpa using hr
  · intro hc hw
    have hres : admAPIRulesSave ruleExts ruleNames raw o fs
        = (("compiled-updated.gen.tmp",
            String.join (writeRulesAux raw o.writeFails ruleNames 0 []).1)
            :: fs.filter (fun f => !(ruleExts.contains (fileExt f.1))), false) := by
      simp [admAPIRulesSave, hc, hw]
    refine ⟨by rw [hres], ?_⟩
    intro f hf hext hmem
    rw [hres] at hmem
    rcases List.mem_cons.mp hmem with he | he
    · subst he
      have hxt : fileExt "compiled-updated.gen.tmp" = ".tmp" := by decide
      dsimp only at hext
      rw [hxt] at hext
      rw [hext] at htmp
      exact Bool.noConfusion htmp
    · have hp := (List.mem_filter.mp he).2
      simp only [Bool.not_eq_true', Bool.not_eq_false] at hp
      rw [hext] at hp
      exact Bool.noConfusion hp

end Whids

namespace Whids

/-- Witness for the amended rules-save theorem: temp-file creation failure
leaves the directory untouched. -/
theorem c8_rules_save_amended_witness :
    admAPIRulesSave [".gen"] ["r1"] (fun r => r) ⟨true, fun _ => false, false⟩
      [("a.gen", "x")] = ([("a.gen", "x")], false) :=
  (c8_rules_save_amended [".gen"] ["r1"] (fun r => r) ⟨true, fun _ => false, false⟩
    [("a.gen", "x")] (by decide)).1 rfl

end Whids
